import Mathlib

/-!
# Verification of `enc_png` (raster-to-PNG memory encoder)

Shallow embedding of `src/enc_png.c`, which wraps an external PNG-writing
engine (libpng): a memory sink (`user_write_data`), the bit-depth/color-type
derivation, the row-pointer construction, and the orchestration in `enc_png`.

The external engine is opaque to this repository; its observable behaviour
(allocation outcomes, the chunks it pushes through the write callback, and
whether it signals a fatal fault via the error-jump mechanism) is a parameter
`EngineBehavior` of the model.  The local C code is translated exactly:
`g2int` is a 32-bit signed int, modelled as `Int` with explicit wrap-around.
-/

/-- Two's-complement wrap of an integer to the range of a 32-bit signed int
(`g2int` is `typedef int g2int`). -/
def wrap32 (x : Int) : Int := (x + 2^31) % 2^32 - 2^31

/-- `struct png_stream`: the in-memory sink.  `stream_ptr` holds the bytes of
the caller's output region, `stream_len` the number of bytes written so far. -/
structure png_stream where
  stream_ptr : List Nat
  stream_len : Int
deriving Repr, DecidableEq

/-- `memcpy(buf + offset, chunk, chunk.length)`: overwrite `buf` at `offset`
with the bytes of `chunk`, leaving everything before `offset` and everything
past `offset + chunk.length` in place. -/
def memcpy (buf : List Nat) (offset : Nat) (chunk : List Nat) : List Nat :=
  buf.take offset ++ chunk ++ buf.drop (offset + chunk.length)

/-- `user_write_data`: the custom libpng write callback.  It reads the sink's
current `stream_len`, copies the incoming chunk at that offset, and advances
`stream_len` by the chunk's length (`g2int` addition, hence the wrap). -/
def user_write_data (mem : png_stream) (chunk : List Nat) : png_stream :=
  { stream_ptr := memcpy mem.stream_ptr mem.stream_len.toNat chunk
    stream_len := wrap32 (mem.stream_len + chunk.length) }

/-- The effect on the sink of a sequence of write-callback invocations. -/
def writeChunks (mem : png_stream) (chunks : List (List Nat)) : png_stream :=
  chunks.foldl user_write_data mem

/-- libpng `PNG_COLOR_TYPE_GRAY`. -/
def PNG_COLOR_TYPE_GRAY : Int := 0
/-- libpng `PNG_COLOR_TYPE_RGB`. -/
def PNG_COLOR_TYPE_RGB : Int := 2
/-- libpng `PNG_COLOR_TYPE_RGB_ALPHA`. -/
def PNG_COLOR_TYPE_RGB_ALPHA : Int := 6

/-- Observable behaviour of one run of the external engine's encode-and-write
step (`png_write_png`) and of the metadata registration (`png_set_IHDR`),
both of which may signal a fatal fault through the error jump installed by
`setjmp(png_jmpbuf(png_ptr))`. -/
inductive EncodeOutcome where
  /-- `png_set_IHDR` raises a fatal error (e.g. an invalid parameter
  combination); this happens before the row-pointer array is allocated. -/
  | ihdrFault : EncodeOutcome
  /-- `png_write_png` raises a fatal error after having pushed
  `chunksBefore` through the write callback. -/
  | writeFault (chunksBefore : List (List Nat)) : EncodeOutcome
  /-- `png_write_png` completes, having pushed `chunks` through the write
  callback. -/
  | success (chunks : List (List Nat)) : EncodeOutcome
deriving Repr, DecidableEq

/-- The engine-dependent outcomes of one `enc_png` call: whether the two
allocation calls succeed, and what the encode step does. -/
structure EngineBehavior where
  writeStructOk : Bool
  infoStructOk : Bool
  outcome : EncodeOutcome
deriving Repr, DecidableEq

/-- Resource acquisition/release events, in program order. -/
inductive REvent where
  | allocWriteStruct : REvent
  | allocInfoStruct : REvent
  | allocRows : REvent
  | freeWriteStruct : REvent
  | freeInfoStruct : REvent
  | freeRows : REvent
deriving Repr, DecidableEq

/-- The arguments `enc_png` passes to `png_set_IHDR`. -/
structure IHDRArgs where
  width : Int
  height : Int
  bit_depth : Int
  color_type : Int
deriving Repr, DecidableEq

/-- Complete observable result of one `enc_png` call. -/
structure EncResult where
  /-- the `int` return value -/
  ret : Int
  /-- final contents of the caller's output region `pngbuf` -/
  pngbuf : List Nat
  /-- resource events, in order -/
  events : List REvent
  /-- arguments passed to `png_set_IHDR` (`none` if never called) -/
  ihdrArgs : Option IHDRArgs
  /-- byte offsets into `data` stored in the row-pointer array handed to
  `png_set_rows` (`none` if never built) -/
  rows : Option (List Int)
  /-- the chunks passed to the write callback, in order -/
  sinkCalls : List (List Nat)
  /-- final contents of the caller's pixel buffer -/
  dataFinal : List Nat
  /-- final value of `*width` -/
  widthFinal : Int
  /-- final value of `*height` -/
  heightFinal : Int
  /-- final value of `*nbits` -/
  nbitsFinal : Int
deriving Repr, DecidableEq

/-- The row-pointer offsets: `row_pointers[j] = data + j * (*width) * bytes`
with `bytes = *nbits / 8`; the loop runs `j = 0 .. *height - 1` and the index
arithmetic is `g2int` (32-bit) arithmetic. -/
def rowOffsets (width height nbits : Int) : List Int :=
  (List.range height.toNat).map
    (fun j : Nat => wrap32 (wrap32 ((j : Int) * width) * Int.tdiv nbits 8))

/-- `enc_png(data, width, height, nbits, pngbuf)`: translation of the body of
`enc_png` with the external engine's behaviour as a parameter.  Returns the
full observable result of the call. -/
def enc_png (data : List Nat) (width height nbits : Int) (pngbuf : List Nat)
    (engine : EngineBehavior) : EncResult :=
  if !engine.writeStructOk then
    { ret := -1, pngbuf := pngbuf, events := [], ihdrArgs := none,
      rows := none, sinkCalls := [], dataFinal := data, widthFinal := width,
      heightFinal := height, nbitsFinal := nbits }
  else if !engine.infoStructOk then
    { ret := -2, pngbuf := pngbuf,
      events := [.allocWriteStruct, .freeWriteStruct], ihdrArgs := none,
      rows := none, sinkCalls := [], dataFinal := data, widthFinal := width,
      heightFinal := height, nbitsFinal := nbits }
  else
    let bit_depth : Int := if nbits = 24 then 8 else if nbits = 32 then 8 else nbits
    let color_type : Int :=
      if nbits = 24 then PNG_COLOR_TYPE_RGB
      else if nbits = 32 then PNG_COLOR_TYPE_RGB_ALPHA
      else PNG_COLOR_TYPE_GRAY
    let args : IHDRArgs :=
      { width := width, height := height, bit_depth := bit_depth,
        color_type := color_type }
    match engine.outcome with
    | .ihdrFault =>
      { ret := -3, pngbuf := pngbuf,
        events := [.allocWriteStruct, .allocInfoStruct,
                   .freeInfoStruct, .freeWriteStruct],
        ihdrArgs := some args, rows := none, sinkCalls := [],
        dataFinal := data, widthFinal := width, heightFinal := height,
        nbitsFinal := nbits }
    | .writeFault chunksBefore =>
      let mem := writeChunks ⟨pngbuf, 0⟩ chunksBefore
      { ret := -3, pngbuf := mem.stream_ptr,
        events := [.allocWriteStruct, .allocInfoStruct, .allocRows,
                   .freeInfoStruct, .freeWriteStruct],
        ihdrArgs := some args, rows := some (rowOffsets width height nbits),
        sinkCalls := chunksBefore, dataFinal := data, widthFinal := width,
        heightFinal := height, nbitsFinal := nbits }
    | .success chunks =>
      let mem := writeChunks ⟨pngbuf, 0⟩ chunks
      { ret := mem.stream_len, pngbuf := mem.stream_ptr,
        events := [.allocWriteStruct, .allocInfoStruct, .allocRows,
                   .freeInfoStruct, .freeWriteStruct, .freeRows],
        ihdrArgs := some args, rows := some (rowOffsets width height nbits),
        sinkCalls := chunks, dataFinal := data, widthFinal := width,
        heightFinal := height, nbitsFinal := nbits }

/-- `enc_png` builds the row-pointer array and hands it to `png_set_rows`
exactly when execution reaches the `malloc` (both alloc calls succeeded and
`png_set_IHDR` did not fault). -/
def EncodeOutcome.buildsRows : EncodeOutcome → Bool
  | .ihdrFault => false
  | .writeFault _ => true
  | .success _ => true

/-- Whether the outcome signals a fatal engine fault (the error jump fires). -/
def EncodeOutcome.isFault : EncodeOutcome → Bool
  | .ihdrFault => true
  | .writeFault _ => true
  | .success _ => false

/-- Every resource acquired during the call was released: each alloc event is
matched by the corresponding free event. -/
def releasesAll (r : EncResult) : Bool :=
  (r.events.count .allocWriteStruct == r.events.count .freeWriteStruct) &&
  (r.events.count .allocInfoStruct == r.events.count .freeInfoStruct) &&
  (r.events.count .allocRows == r.events.count .freeRows)

lemma wrap32_eq_self (x : Int) (h1 : -(2^31) ≤ x) (h2 : x < 2^31) :
    wrap32 x = x := by
  unfold wrap32
  have h : (x + 2^31) % 2^32 = x + 2^31 := Int.emod_eq_of_lt (by omega) (by omega)
  omega

lemma memcpy_length (buf chunk : List Nat) (off : Nat)
    (h : off + chunk.length ≤ buf.length) :
    (memcpy buf off chunk).length = buf.length := by
  simp only [memcpy, List.length_append, List.length_take, List.length_drop]
  omega

lemma memcpy_get_lt (buf chunk : List Nat) (off p : Nat)
    (hp : p < off) (hoff : off ≤ buf.length) :
    (memcpy buf off chunk)[p]? = buf[p]? := by
  have hlen : (buf.take off).length = off := by
    simp [List.length_take]; omega
  unfold memcpy
  rw [List.append_assoc, List.getElem?_append, hlen, if_pos hp,
    List.getElem?_take]
  simp [hp]

lemma memcpy_get_chunk (buf chunk : List Nat) (off i : Nat)
    (hoff : off ≤ buf.length) (hi : i < chunk.length) :
    (memcpy buf off chunk)[off + i]? = chunk[i]? := by
  have hlen : (buf.take off).length = off := by
    simp [List.length_take]; omega
  unfold memcpy
  rw [List.append_assoc, List.getElem?_append, hlen, if_neg (by omega),
    Nat.add_sub_cancel_left, List.getElem?_append, if_pos hi]

/-- One invocation of the write callback, under the capacity contract:
the length counter advances exactly by the chunk length, the buffer keeps its
size, bytes strictly below the old offset are untouched, and the chunk's bytes
land at the old offset. -/
lemma user_write_data_step (mem : png_stream) (chunk : List Nat)
    (h0 : 0 ≤ mem.stream_len)
    (hfit : mem.stream_len + (chunk.length : Int) ≤ (mem.stream_ptr.length : Int))
    (hcap : (mem.stream_ptr.length : Int) < 2^31) :
    (user_write_data mem chunk).stream_len = mem.stream_len + chunk.length ∧
    (user_write_data mem chunk).stream_ptr.length = mem.stream_ptr.length ∧
    (∀ p : Nat, (p : Int) < mem.stream_len →
      (user_write_data mem chunk).stream_ptr[p]? = mem.stream_ptr[p]?) ∧
    (∀ i : Nat, i < chunk.length →
      (user_write_data mem chunk).stream_ptr[mem.stream_len.toNat + i]? =
        chunk[i]?) := by
  have htn : (mem.stream_len.toNat : Int) = mem.stream_len :=
    Int.toNat_of_nonneg h0
  have hfit' : mem.stream_len.toNat + chunk.length ≤ mem.stream_ptr.length := by
    omega
  refine ⟨?_, ?_, ?_, ?_⟩
  · show wrap32 (mem.stream_len + chunk.length) = _
    exact wrap32_eq_self _ (by omega) (by omega)
  · exact memcpy_length _ _ _ hfit'
  · intro p hp
    exact memcpy_get_lt _ _ _ _ (by omega) (by omega)
  · intro i hi
    exact memcpy_get_chunk _ _ _ _ (by omega) hi

/-- Effect of a whole sequence of write-callback invocations, under the
capacity contract: the length counter ends at start plus the total chunk
length, the buffer keeps its size, and every byte strictly below the starting
offset is untouched. -/
lemma writeChunks_invariant (chunks : List (List Nat)) (mem : png_stream)
    (h0 : 0 ≤ mem.stream_len)
    (hfit : mem.stream_len + ((chunks.map List.length).sum : Int) ≤
      (mem.stream_ptr.length : Int))
    (hcap : (mem.stream_ptr.length : Int) < 2^31) :
    (writeChunks mem chunks).stream_len =
      mem.stream_len + ((chunks.map List.length).sum : Int) ∧
    (writeChunks mem chunks).stream_ptr.length = mem.stream_ptr.length ∧
    ∀ p : Nat, (p : Int) < mem.stream_len →
      (writeChunks mem chunks).stream_ptr[p]? = mem.stream_ptr[p]? := by
  induction chunks generalizing mem with
  | nil => simp [writeChunks]
  | cons c cs ih =>
    have hsum : (((c :: cs).map List.length).sum : Int) =
        (c.length : Int) + ((cs.map List.length).sum : Int) := by
      push_cast [List.map_cons, List.sum_cons]; ring
    have hcs0 : (0 : Int) ≤ ((cs.map List.length).sum : Int) := Int.natCast_nonneg _
    have step := user_write_data_step mem c h0 (by omega) hcap
    have hws : writeChunks mem (c :: cs) = writeChunks (user_write_data mem c) cs := rfl
    have ih' := ih (user_write_data mem c)
      (by rw [step.1]; omega)
      (by rw [step.1, step.2.1]; omega)
      (by rw [step.2.1]; exact hcap)
    refine ⟨?_, ?_, ?_⟩
    · rw [hws, ih'.1, step.1, hsum]; ring
    · rw [hws, ih'.2.1, step.2.1]
    · intro p hp
      rw [hws, ih'.2.2 p (by rw [step.1]; omega), step.2.2.1 p hp]

/-- **C1**: for every call to `enc_png` that completes without an error
(both allocations succeed and the encode step completes), the integer
returned equals the sink's accumulated `stream_len`, i.e. the sum of the
lengths of all chunks passed to the write callback during the call, starting
from 0 — under the caller's capacity contract (the chunks fit in the output
buffer, whose size fits in `g2int`). -/
theorem C1_return_is_length_written
    (data : List Nat) (width height nbits : Int) (pngbuf : List Nat)
    (engine : EngineBehavior) (chunks : List (List Nat))
    (hw : engine.writeStructOk = true) (hi : engine.infoStructOk = true)
    (ho : engine.outcome = .success chunks)
    (hfit : ((chunks.map List.length).sum : Int) ≤ (pngbuf.length : Int))
    (hcap : (pngbuf.length : Int) < 2^31) :
    (enc_png data width height nbits pngbuf engine).ret =
      (((enc_png data width height nbits pngbuf engine).sinkCalls.map
        List.length).sum : Int) := by
  have hinv := writeChunks_invariant chunks ⟨pngbuf, 0⟩ le_rfl
    (by simpa using hfit) (by simpa using hcap)
  simp only [enc_png, hw, hi, ho, Bool.not_true, Bool.false_eq_true,
    if_false, ite_false]
  rw [hinv.1]
  simp

/-- Witness for C1 at a concrete call. -/
theorem C1_witness :
    (enc_png [5] 1 1 8 [0,0,0] ⟨true, true, .success [[1],[2,3]]⟩).ret =
      (((enc_png [5] 1 1 8 [0,0,0]
        ⟨true, true, .success [[1],[2,3]]⟩).sinkCalls.map List.length).sum : Int) :=
  C1_return_is_length_written [5] 1 1 8 [0,0,0]
    ⟨true, true, .success [[1],[2,3]]⟩ [[1],[2,3]] rfl rfl rfl
    (by decide) (by decide)

/-- **C2**: whenever `enc_png` reaches metadata registration, the
(per-channel bit depth, color type) pair it passes to `png_set_IHDR` is
derived from the input bit depth exactly as: 8 → (8, grayscale),
24 → (8, RGB), 32 → (8, RGB+alpha). -/
theorem C2_bit_depth_color_type
    (data : List Nat) (width height : Int) (pngbuf : List Nat)
    (engine : EngineBehavior)
    (hw : engine.writeStructOk = true) (hi : engine.infoStructOk = true) :
    (enc_png data width height 8 pngbuf engine).ihdrArgs =
      some ⟨width, height, 8, PNG_COLOR_TYPE_GRAY⟩ ∧
    (enc_png data width height 24 pngbuf engine).ihdrArgs =
      some ⟨width, height, 8, PNG_COLOR_TYPE_RGB⟩ ∧
    (enc_png data width height 32 pngbuf engine).ihdrArgs =
      some ⟨width, height, 8, PNG_COLOR_TYPE_RGB_ALPHA⟩ := by
  cases ho : engine.outcome <;>
    simp [enc_png, hw, hi, ho, PNG_COLOR_TYPE_GRAY, PNG_COLOR_TYPE_RGB,
      PNG_COLOR_TYPE_RGB_ALPHA]

/-- Witness for C2 at a concrete call. -/
theorem C2_witness :
    (enc_png [7] 1 1 8 [0] ⟨true, true, .success []⟩).ihdrArgs =
      some ⟨1, 1, 8, PNG_COLOR_TYPE_GRAY⟩ ∧
    (enc_png [7] 1 1 24 [0] ⟨true, true, .success []⟩).ihdrArgs =
      some ⟨1, 1, 8, PNG_COLOR_TYPE_RGB⟩ ∧
    (enc_png [7] 1 1 32 [0] ⟨true, true, .success []⟩).ihdrArgs =
      some ⟨1, 1, 8, PNG_COLOR_TYPE_RGB_ALPHA⟩ :=
  C2_bit_depth_color_type [7] 1 1 [0] ⟨true, true, .success []⟩ rfl rfl

/-- **C7**: when the engine's core write struct cannot be allocated,
`enc_png` returns the init-error result (-1) having performed no further
work: the output buffer is untouched, the sink receives no write, no
resource events happen, and neither metadata nor the row view are built. -/
theorem C7_init_failure_no_work
    (data : List Nat) (width height nbits : Int) (pngbuf : List Nat)
    (engine : EngineBehavior) (hw : engine.writeStructOk = false) :
    (enc_png data width height nbits pngbuf engine).ret = -1 ∧
    (enc_png data width height nbits pngbuf engine).pngbuf = pngbuf ∧
    (enc_png data width height nbits pngbuf engine).sinkCalls = [] ∧
    (enc_png data width height nbits pngbuf engine).events = [] ∧
    (enc_png data width height nbits pngbuf engine).ihdrArgs = none ∧
    (enc_png data width height nbits pngbuf engine).rows = none := by
  simp [enc_png, hw]

/-- Witness for C7 at a concrete call. -/
theorem C7_witness :
    (enc_png [1] 1 1 8 [0,0] ⟨false, true, .success [[2]]⟩).ret = -1 ∧
    (enc_png [1] 1 1 8 [0,0] ⟨false, true, .success [[2]]⟩).pngbuf = [0,0] :=
  ⟨(C7_init_failure_no_work [1] 1 1 8 [0,0] ⟨false, true, .success [[2]]⟩
      rfl).1,
   (C7_init_failure_no_work [1] 1 1 8 [0,0] ⟨false, true, .success [[2]]⟩
      rfl).2.1⟩

/-- **C3**: every invocation of the sink's write callback copies its chunk
into the output buffer starting exactly at the current `stream_len` offset
and then advances `stream_len` by exactly the chunk's length; across any
sequence of write calls `stream_len` never decreases and bytes below the
starting offset (in particular bytes written by earlier calls) are never
overwritten — under the caller's capacity contract. -/
theorem C3_sink_append_only
    (mem : png_stream) (chunk : List Nat) (chunks : List (List Nat))
    (h0 : 0 ≤ mem.stream_len)
    (hone : mem.stream_len + (chunk.length : Int) ≤ (mem.stream_ptr.length : Int))
    (hall : mem.stream_len + ((chunks.map List.length).sum : Int) ≤
      (mem.stream_ptr.length : Int))
    (hcap : (mem.stream_ptr.length : Int) < 2^31) :
    ((user_write_data mem chunk).stream_len = mem.stream_len + chunk.length ∧
     (∀ i : Nat, i < chunk.length →
       (user_write_data mem chunk).stream_ptr[mem.stream_len.toNat + i]? =
         chunk[i]?) ∧
     (∀ p : Nat, (p : Int) < mem.stream_len →
       (user_write_data mem chunk).stream_ptr[p]? = mem.stream_ptr[p]?)) ∧
    (mem.stream_len ≤ (writeChunks mem chunks).stream_len ∧
     ∀ p : Nat, (p : Int) < mem.stream_len →
       (writeChunks mem chunks).stream_ptr[p]? = mem.stream_ptr[p]?) := by
  have step := user_write_data_step mem chunk h0 hone hcap
  have hinv := writeChunks_invariant chunks mem h0 hall hcap
  refine ⟨⟨step.1, step.2.2.2, step.2.2.1⟩, ?_, hinv.2.2⟩
  rw [hinv.1]
  have hs : (0 : Int) ≤ ((chunks.map List.length).sum : Int) :=
    Int.natCast_nonneg _
  omega

/-- Witness for C3 at a concrete sink state and chunk sequence. -/
theorem C3_witness :
    (user_write_data ⟨[6,0,0,0], 1⟩ [5]).stream_len =
      (⟨[6,0,0,0], 1⟩ : png_stream).stream_len + (([5] : List Nat).length : Int) ∧
    (⟨[6,0,0,0], 1⟩ : png_stream).stream_len ≤
      (writeChunks ⟨[6,0,0,0], 1⟩ [[7],[9]]).stream_len :=
  ⟨(C3_sink_append_only ⟨[6,0,0,0], 1⟩ [5] [[7],[9]] (by decide) (by decide)
      (by decide) (by decide)).1.1,
   (C3_sink_append_only ⟨[6,0,0,0], 1⟩ [5] [[7],[9]] (by decide) (by decide)
      (by decide) (by decide)).2.1⟩

/-- **C4**: the three failure conditions — write-struct allocation failure,
info-struct allocation failure, encode-time fault — produce the distinct
results -1, -2, -3, each distinguishable from every successful byte-count
return (which is nonnegative under the capacity contract). -/
theorem C4_errors_distinguishable
    (data : List Nat) (width height nbits : Int) (pngbuf : List Nat)
    (engine : EngineBehavior) (chunks : List (List Nat)) :
    (engine.writeStructOk = false →
      (enc_png data width height nbits pngbuf engine).ret = -1) ∧
    (engine.writeStructOk = true → engine.infoStructOk = false →
      (enc_png data width height nbits pngbuf engine).ret = -2) ∧
    (engine.writeStructOk = true → engine.infoStructOk = true →
      engine.outcome.isFault = true →
      (enc_png data width height nbits pngbuf engine).ret = -3) ∧
    (engine.writeStructOk = true → engine.infoStructOk = true →
      engine.outcome = .success chunks →
      ((chunks.map List.length).sum : Int) ≤ (pngbuf.length : Int) →
      (pngbuf.length : Int) < 2^31 →
      0 ≤ (enc_png data width height nbits pngbuf engine).ret) := by
  refine ⟨?_, ?_, ?_, ?_⟩
  · intro hw; simp [enc_png, hw]
  · intro hw hi; simp [enc_png, hw, hi]
  · intro hw hi hf
    cases ho : engine.outcome with
    | ihdrFault => simp [enc_png, hw, hi, ho]
    | writeFault cs => simp [enc_png, hw, hi, ho]
    | success cs => simp [ho, EncodeOutcome.isFault] at hf
  · intro hw hi ho hfit hcap
    have hinv := writeChunks_invariant chunks ⟨pngbuf, 0⟩ le_rfl
      (by simpa using hfit) (by simpa using hcap)
    simp only [enc_png, hw, hi, ho, Bool.not_true, Bool.false_eq_true,
      if_false, ite_false]
    rw [hinv.1]
    simp only [png_stream.stream_len, zero_add]
    exact Int.natCast_nonneg _

/-- Witness for C4: each branch at a concrete call. -/
theorem C4_witness :
    (enc_png [] 1 1 8 [] ⟨false, true, .success []⟩).ret = -1 ∧
    (enc_png [] 1 1 8 [] ⟨true, false, .success []⟩).ret = -2 ∧
    (enc_png [] 1 1 8 [] ⟨true, true, .ihdrFault⟩).ret = -3 ∧
    0 ≤ (enc_png [] 1 1 8 [] ⟨true, true, .success [[]]⟩).ret :=
  ⟨(C4_errors_distinguishable [] 1 1 8 [] ⟨false, true, .success []⟩ []).1 rfl,
   (C4_errors_distinguishable [] 1 1 8 [] ⟨true, false, .success []⟩ []).2.1
      rfl rfl,
   (C4_errors_distinguishable [] 1 1 8 [] ⟨true, true, .ihdrFault⟩ []).2.2.1
      rfl rfl rfl,
   (C4_errors_distinguishable [] 1 1 8 [] ⟨true, true, .success [[]]⟩
      [[]]).2.2.2 rfl rfl rfl (by decide) (by decide)⟩

/-- **C5 counterexample**: on the encode-fault exit path (the error jump
fires during `png_write_png`), the row-pointer array has already been
allocated but is never freed — the claim that all acquired resources are
released on every exit path is false at this concrete call. -/
theorem C5_counterexample :
    releasesAll (enc_png [1] 1 1 8 [0,0,0,0] ⟨true, true, .writeFault []⟩)
      = false ∧
    (enc_png [1] 1 1 8 [0,0,0,0]
      ⟨true, true, .writeFault []⟩).events.count REvent.allocRows = 1 ∧
    (enc_png [1] 1 1 8 [0,0,0,0]
      ⟨true, true, .writeFault []⟩).events.count REvent.freeRows = 0 := by
  decide

/-- **C5 (amended)**: on the write-struct failure path nothing was acquired;
on the info-struct failure path the write struct is freed; on a fault during
metadata registration both engine structs are freed; on success both structs
are destroyed and then the row-pointer array is freed — all acquired
resources are released on those paths.  But on a fault during the
encode-and-write step the already-allocated row-pointer array is never
freed: that exit path leaks it. -/
theorem C5_teardown_amended
    (data : List Nat) (width height nbits : Int) (pngbuf : List Nat)
    (engine : EngineBehavior) (cs : List (List Nat)) :
    (engine.writeStructOk = false →
      (enc_png data width height nbits pngbuf engine).events = [] ∧
      releasesAll (enc_png data width height nbits pngbuf engine) = true) ∧
    (engine.writeStructOk = true → engine.infoStructOk = false →
      (enc_png data width height nbits pngbuf engine).events =
        [.allocWriteStruct, .freeWriteStruct] ∧
      releasesAll (enc_png data width height nbits pngbuf engine) = true) ∧
    (engine.writeStructOk = true → engine.infoStructOk = true →
      engine.outcome = .ihdrFault →
      (enc_png data width height nbits pngbuf engine).events =
        [.allocWriteStruct, .allocInfoStruct, .freeInfoStruct,
         .freeWriteStruct] ∧
      releasesAll (enc_png data width height nbits pngbuf engine) = true) ∧
    (engine.writeStructOk = true → engine.infoStructOk = true →
      engine.outcome = .success cs →
      (enc_png data width height nbits pngbuf engine).events =
        [.allocWriteStruct, .allocInfoStruct, .allocRows, .freeInfoStruct,
         .freeWriteStruct, .freeRows] ∧
      releasesAll (enc_png data width height nbits pngbuf engine) = true) ∧
    (engine.writeStructOk = true → engine.infoStructOk = true →
      engine.outcome = .writeFault cs →
      (enc_png data width height nbits pngbuf engine).events =
        [.allocWriteStruct, .allocInfoStruct, .allocRows, .freeInfoStruct,
         .freeWriteStruct] ∧
      releasesAll (enc_png data width height nbits pngbuf engine) = false) := by
  refine ⟨?_, ?_, ?_, ?_, ?_⟩
  · intro hw
    simp [enc_png, hw, releasesAll]
  · intro hw hi
    simp [enc_png, hw, hi, releasesAll]
  · intro hw hi ho
    simp [enc_png, hw, hi, ho, releasesAll]
  · intro hw hi ho
    simp [enc_png, hw, hi, ho, releasesAll]
  · intro hw hi ho
    simp [enc_png, hw, hi, ho, releasesAll]

/-- Witness for C5's amended statement at concrete calls: a clean success
path and the leaking fault path. -/
theorem C5_witness :
    (enc_png [2] 1 1 8 [0,0] ⟨true, true, .success [[3]]⟩).events =
      [.allocWriteStruct, .allocInfoStruct, .allocRows, .freeInfoStruct,
       .freeWriteStruct, .freeRows] ∧
    releasesAll (enc_png [2] 1 1 8 [0,0] ⟨true, true, .writeFault [[3]]⟩)
      = false :=
  ⟨((C5_teardown_amended [2] 1 1 8 [0,0] ⟨true, true, .success [[3]]⟩
      [[3]]).2.2.2.1 rfl rfl rfl).1,
   ((C5_teardown_amended [2] 1 1 8 [0,0] ⟨true, true, .writeFault [[3]]⟩
      [[3]]).2.2.2.2 rfl rfl rfl).2⟩

/-- **C6**: whenever `enc_png` builds the row-pointer view and hands it to
the engine, the view has exactly `height` entries, and entry `i` holds byte
offset `i * width * (nbits / 8)` into the caller's pixel buffer (for
dimensions whose products fit in `g2int`). -/
theorem C6_row_pointer_view
    (data : List Nat) (width height nbits : Int) (pngbuf : List Nat)
    (engine : EngineBehavior) (l : List Int)
    (hrows : (enc_png data width height nbits pngbuf engine).rows = some l)
    (hw0 : 0 ≤ width) (hn0 : 0 ≤ nbits)
    (hwh : height * width < 2^31)
    (hwhb : height * width * Int.tdiv nbits 8 < 2^31) :
    l.length = height.toNat ∧
    ∀ j : Nat, j < height.toNat →
      l[j]? = some ((j : Int) * width * Int.tdiv nbits 8) := by
  have hl : l = rowOffsets width height nbits := by
    rcases engine with ⟨w, i, o⟩
    cases w <;> cases i <;> cases o <;>
      simp [enc_png] at hrows <;> exact hrows.symm
  subst hl
  have hb : 0 ≤ Int.tdiv nbits 8 := Int.tdiv_nonneg hn0 (by norm_num)
  refine ⟨?_, ?_⟩
  · unfold rowOffsets
    rw [List.length_map, List.length_range]
  intro j hj
  have hjh : (j : Int) < height := by omega
  have h1 : (j : Int) * width ≤ height * width :=
    mul_le_mul_of_nonneg_right (le_of_lt hjh) hw0
  have h1' : 0 ≤ (j : Int) * width :=
    mul_nonneg (Int.natCast_nonneg _) hw0
  have h2 : wrap32 ((j : Int) * width) = (j : Int) * width :=
    wrap32_eq_self _ (by omega) (by omega)
  have h3 : (j : Int) * width * Int.tdiv nbits 8 ≤
      height * width * Int.tdiv nbits 8 :=
    mul_le_mul_of_nonneg_right h1 hb
  have h3' : 0 ≤ (j : Int) * width * Int.tdiv nbits 8 :=
    mul_nonneg h1' hb
  have h4 : wrap32 ((j : Int) * width * Int.tdiv nbits 8) =
      (j : Int) * width * Int.tdiv nbits 8 :=
    wrap32_eq_self _ (by omega) (by omega)
  unfold rowOffsets
  rw [List.getElem?_map, List.getElem?_range hj, Option.map_some', h2, h4]

/-- Witness for C6 at a concrete call (2×2 grayscale image). -/
theorem C6_witness :
    ([0, 2] : List Int).length = (2 : Int).toNat :=
  (C6_row_pointer_view [1,2,3,4] 2 2 8 [0,0,0,0,0,0]
    ⟨true, true, .success []⟩ [0, 2] (by decide) (by decide) (by decide)
    (by decide) (by decide)).1

/-- **C8**: for any input bit depth outside {8, 24, 32}, `enc_png` does not
reject the input: it falls through to the grayscale branch, passing color
type grayscale with the raw `nbits` value as the bit depth to the engine —
and (for a fault-free engine run under the capacity contract) still returns
a nonnegative byte count rather than an input error. -/
theorem C8_fallthrough_grayscale
    (data : List Nat) (width height nbits : Int) (pngbuf : List Nat)
    (engine : EngineBehavior) (chunks : List (List Nat))
    (h24 : nbits ≠ 24) (h32 : nbits ≠ 32)
    (hw : engine.writeStructOk = true) (hi : engine.infoStructOk = true) :
    (enc_png data width height nbits pngbuf engine).ihdrArgs =
      some ⟨width, height, nbits, PNG_COLOR_TYPE_GRAY⟩ ∧
    (engine.outcome = .success chunks →
      ((chunks.map List.length).sum : Int) ≤ (pngbuf.length : Int) →
      (pngbuf.length : Int) < 2^31 →
      0 ≤ (enc_png data width height nbits pngbuf engine).ret) := by
  constructor
  · cases ho : engine.outcome <;>
      simp [enc_png, hw, hi, ho, h24, h32, PNG_COLOR_TYPE_GRAY]
  · intro ho hfit hcap
    have hinv := writeChunks_invariant chunks ⟨pngbuf, 0⟩ le_rfl
      (by simpa using hfit) (by simpa using hcap)
    simp only [enc_png, hw, hi, ho, Bool.not_true, Bool.false_eq_true,
      if_false, ite_false]
    rw [hinv.1]
    simp only [png_stream.stream_len, zero_add]
    exact Int.natCast_nonneg _

/-- Witness for C8 at the unsupported bit depth 16. -/
theorem C8_witness :
    (enc_png [1,2] 1 1 16 [0,0] ⟨true, true, .success [[4]]⟩).ihdrArgs =
      some ⟨1, 1, 16, PNG_COLOR_TYPE_GRAY⟩ ∧
    0 ≤ (enc_png [1,2] 1 1 16 [0,0] ⟨true, true, .success [[4]]⟩).ret :=
  ⟨(C8_fallthrough_grayscale [1,2] 1 1 16 [0,0] ⟨true, true, .success [[4]]⟩
      [[4]] (by decide) (by decide) rfl rfl).1,
   (C8_fallthrough_grayscale [1,2] 1 1 16 [0,0] ⟨true, true, .success [[4]]⟩
      [[4]] (by decide) (by decide) rfl rfl).2 rfl (by decide) (by decide)⟩

/-- **C10**: `enc_png` never modifies its inputs: the pixel buffer and the
pointed-to `width`, `height`, `nbits` values are identical before and after
every call, on success and on every error path. -/
theorem C10_inputs_unmodified
    (data : List Nat) (width height nbits : Int) (pngbuf : List Nat)
    (engine : EngineBehavior) :
    (enc_png data width height nbits pngbuf engine).dataFinal = data ∧
    (enc_png data width height nbits pngbuf engine).widthFinal = width ∧
    (enc_png data width height nbits pngbuf engine).heightFinal = height ∧
    (enc_png data width height nbits pngbuf engine).nbitsFinal = nbits := by
  rcases engine with ⟨w, i, o⟩
  cases w <;> cases i <;> cases o <;> simp [enc_png]
